import Mathlib

set_option maxRecDepth 8000

/-!
Shallow embedding of the transaction lifecycle core of the qubetics-go-sdk
repository (package core, along with the gas-price configuration pipeline of
package config):

* error-text classification (core/error.go),
* fee computation (calculateFees in core/tx.go) over cosmos-sdk legacy
  decimals, which are integers at fixed scale 10^18,
* the gas-price parsing pipeline (config/tx.go GetGasPrices, which calls
  cosmos-sdk ParseDecCoins),
* the broadcast retry loop (BroadcastTxSync in core/tx.go), the inclusion
  query retry loop (Tx in core/tx.go) and the orchestrator
  (BroadcastTxBlock in core/tx.go), driven by oracles that give the outcome
  of each network attempt,
* signer-address resolution (MsgFromAddr in core/tx.go, Key and KeyAddr of
  the keys file of package core) and the front part of the broadcastTxSync
  pipeline (key lookup, authz wrapping, message validation, account query).

Network collaborators (the node RPC, the keyring backend, the account query
method, and the prepare/sign/encode tail of the pipeline) are modelled as
oracles: functions from the attempt index, or from the data the source
passes them, to the outcome the collaborator produced.  Go (value, error)
returns where the source guarantees exactly one side is set are modelled as
Except; returns where both sides can be nil at once are modelled as a pair
of options.  A Go panic (nil-pointer dereference, cosmossdk.NewCoin on a
negative amount) is modelled as a distinguished value (none, or a dedicated
constructor).  Real-time aspects (the fixed retry delays) are outside the
model; retry-go treats an attempt count of zero as retry-forever, which the
configuration validator of config/tx.go rejects, so the loops are stated
for attempt counts of at least one.
-/

deriving instance DecidableEq for Except

/-- Prefix test on character lists (true when the first list is a prefix of
the second). -/
def isPrefixList : List Char → List Char → Bool
  | [], _ => true
  | _ :: _, [] => false
  | a :: as, b :: bs => a == b && isPrefixList as bs

/-- Occurrence test on character lists: true when pat occurs as a contiguous
run inside s.  Embeds Go strings.Contains. -/
def containsAux : List Char → List Char → Bool
  | [], pat => pat.isEmpty
  | s :: rest, pat => isPrefixList pat (s :: rest) || containsAux rest pat

/-- Go strings.Contains. -/
def strContains (s pat : String) : Bool := containsAux s.data pat.data

/-- Go strings.ToLower restricted to character-wise lowering (agrees with Go
on ASCII text, which is all the classifier patterns need). -/
def toLowerChars (s : String) : List Char := s.data.map Char.toLower

/-- IsTxInMempoolCacheError of core/error.go: the error text, lowered,
contains "tx already exists in cache". -/
def IsTxInMempoolCacheError (e : String) : Bool :=
  containsAux (toLowerChars e) "tx already exists in cache".data

/-- IsWrongSequenceError of core/error.go: the error text, lowered, contains
"incorrect account sequence". -/
def IsWrongSequenceError (e : String) : Bool :=
  containsAux (toLowerChars e) "incorrect account sequence".data

/-- newErrNotFound of core/error.go: wraps an error text with the ErrNotFound
sentinel, yielding the text "not found: <inner>". -/
def newErrNotFound (e : String) : String := "not found: " ++ e

/-- Scale of a cosmos-sdk legacy decimal: a LegacyDec is an integer counting
units of 10 ^ (-18), so the integer 10 ^ 17 denotes the decimal 0.1. -/
def decScale : ℤ := 10 ^ 18

/-- Gas-price entry (cosmos-sdk DecCoin): a denomination with a LegacyDec
amount, carried here as the scaled integer. -/
structure DecCoin where
  denom : String
  amount : ℤ
deriving DecidableEq

/-- Fee entry (cosmos-sdk Coin): a denomination with an integer amount. -/
structure Coin where
  denom : String
  amount : ℤ
deriving DecidableEq

/-- Character class of cosmos-sdk denomination validation after the leading
letter: letters, digits, and the four symbols of the pattern. -/
def validDenomChar (ch : Char) : Bool :=
  ch.isAlpha || ch.isDigit || ch == '/' || ch == ':' || ch == '.' || ch == '_' || ch == '-'

/-- Cosmos-sdk ValidateDenom: a letter followed by 2 to 127 characters of
the denomination character class. -/
def ValidateDenom (d : String) : Bool :=
  match d.data with
  | [] => false
  | ch :: rest =>
    ch.isAlpha && decide (2 ≤ rest.length) && decide (rest.length ≤ 127)
      && rest.all validDenomChar

/-- Go conversion int64(g) of a uint64 gas limit: values below 2 ^ 63 are
kept, larger ones wrap around to negative numbers (two's complement). -/
def toInt64 (g : ℕ) : ℤ := if g < 2 ^ 63 then (g : ℤ) else (g : ℤ) - 2 ^ 64

/-- Composite of LegacyDec Ceil and RoundInt on a scaled integer: the integer
ceiling of n / 10^18, computed as a floor division of the shifted numerator. -/
def decCeilToInt (n : ℤ) : ℤ := (n + (decScale - 1)).ediv decScale

/-- Fee amount of one gas-price entry in calculateFees of core/tx.go:
price.Amount.MulInt64(int64(gasLimit)) followed by Ceil().RoundInt(). -/
def decCoinFee (p : DecCoin) (gasLimit : ℕ) : ℤ :=
  decCeilToInt (p.amount * toInt64 gasLimit)

/-- Cosmos-sdk NewCoin: validates the denomination and rejects negative
amounts; on violation the Go function panics, modelled as none. -/
def NewCoin (denom : String) (amount : ℤ) : Option Coin :=
  if ValidateDenom denom && decide (0 ≤ amount) then some ⟨denom, amount⟩ else none

/-- calculateFees of core/tx.go lines 35 to 43: one Coin per gas-price entry,
with amount ceil(price * gasLimit); NewCoin panics (none) propagate. -/
def calculateFees : List DecCoin → ℕ → Option (List Coin)
  | [], _ => some []
  | p :: ps, g =>
    match NewCoin p.denom (decCoinFee p g), calculateFees ps g with
    | some cn, some rest => some (cn :: rest)
    | _, _ => none

/-- Cosmos-sdk removeZeroDecCoins (first half of sanitizeDecCoins inside
ParseDecCoins): drops every entry whose amount is zero. -/
def removeZeroDecCoins (l : List DecCoin) : List DecCoin :=
  l.filter fun p => decide (p.amount ≠ 0)

/-- Lexicographic order on character lists; agrees with Go's byte-wise string
order on ASCII text, which is all ValidateDenom admits. -/
def lexLtChars : List Char → List Char → Bool
  | [], [] => false
  | [], _ :: _ => true
  | _ :: _, [] => false
  | a :: as, b :: bs => a < b || (a == b && lexLtChars as bs)

/-- Go string order on denominations. -/
def denomLt (a b : String) : Bool := lexLtChars a.data b.data

/-- Insertion step of the denomination sort used by DecCoins.Sort. -/
def insertDecCoin (p : DecCoin) : List DecCoin → List DecCoin
  | [] => [p]
  | q :: qs => if denomLt q.denom p.denom then q :: insertDecCoin p qs else p :: q :: qs

/-- DecCoins.Sort (second half of sanitizeDecCoins): sorts the entries by
denomination. -/
def sortDecCoins : List DecCoin → List DecCoin
  | [] => []
  | p :: ps => insertDecCoin p (sortDecCoins ps)

/-- Tail loop of cosmos-sdk DecCoins.Validate: each further entry has a valid
denomination, strictly above the previous one, and a positive amount. -/
def validDecCoinsTail (low : String) : List DecCoin → Bool
  | [] => true
  | p :: ps =>
    ValidateDenom p.denom && denomLt low p.denom && decide (0 < p.amount)
      && validDecCoinsTail p.denom ps

/-- Cosmos-sdk DecCoins.Validate: empty is valid; otherwise the head has a
valid denomination and positive amount and the tail chain is checked. -/
def validateDecCoins : List DecCoin → Bool
  | [] => true
  | p :: ps => ValidateDenom p.denom && decide (0 < p.amount) && validDecCoinsTail p.denom ps

/-- Cosmos-sdk ParseDecCoins as invoked by GetGasPrices of config/tx.go, taken
at the level of the already-split (denomination, amount) entries of the
configuration string: sanitizeDecCoins removes zero entries and sorts, then
Validate must accept; a parse error makes GetGasPrices panic (none). -/
def parseDecCoinsEntries (entries : List DecCoin) : Option (List DecCoin) :=
  let s := sortDecCoins (removeZeroDecCoins entries)
  if validateDecCoins s then some s else none

/-- Pointwise comparison of two fee lists: at every common index the first
amount is at most the second. -/
def feeAmountsLE (f1 f2 : List Coin) : Prop :=
  ∀ i : ℕ, ∀ h1 : i < f1.length, ∀ h2 : i < f2.length,
    (f1.get ⟨i, h1⟩).amount ≤ (f2.get ⟨i, h2⟩).amount

/-- Monotonicity of calculateFees at one pair of gas limits, as the spec
states it: both fees are computed (no panic) and the amounts compare
pointwise per denomination. -/
def calculateFeesMonotoneAt (prices : List DecCoin) (g1 g2 : ℕ) : Prop :=
  ∃ f1 f2, calculateFees prices g1 = some f1 ∧ calculateFees prices g2 = some f2
    ∧ feeAmountsLE f1 f2

/-- Result of a synchronous broadcast (cometbft ResultBroadcastTx): mempool
code, codespace, log and transaction hash. -/
structure ResultBroadcastTx where
  code : ℕ
  codespace : String
  log : String
  hash : String
deriving DecidableEq

/-- The retry.Do loop inside BroadcastTxSync of core/tx.go lines 258 to 301,
driven by an oracle f giving the outcome of each execution of the full
broadcastTxSync pipeline (each execution re-fetches the account, tx.go line
217).  k is the index of the current attempt, the last argument the number
of attempts still allowed.  retryFunc maps a mempool-cache error to success
while leaving resp nil; retryIfFunc retries exactly on wrong-sequence
errors.  Returns the final (resp, err) pair together with the number of
pipeline executions performed.  Fuel 0 (retry-forever in retry-go) is
outside the model; the configuration validator rejects attempt count 0. -/
def retryDoBroadcast (f : ℕ → Except String ResultBroadcastTx) (k : ℕ) :
    ℕ → Option ResultBroadcastTx × Option String × ℕ
  | 0 => (none, none, 0)
  | n + 1 =>
    match f k with
    | .ok r => (some r, none, 1)
    | .error e =>
      if IsTxInMempoolCacheError e then (none, none, 1)
      else if IsWrongSequenceError e then
        if n = 0 then (none, some e, 1)
        else
          match retryDoBroadcast f (k + 1) n with
          | (r, er, m) => (r, er, m + 1)
      else (none, some e, 1)

/-- BroadcastTxSync of core/tx.go: runs the retry loop from attempt 0 and, on
error, returns a nil response with the last error wrapped as "tx sync
broadcast failed after retries".  The third component counts the pipeline
executions. -/
def BroadcastTxSync (f : ℕ → Except String ResultBroadcastTx) (attempts : ℕ) :
    Option ResultBroadcastTx × Option String × ℕ :=
  match retryDoBroadcast f 0 attempts with
  | (r, none, m) => (r, none, m)
  | (_, some e, m) => (none, some ("tx sync broadcast failed after retries: " ++ e), m)

/-- Execution result of an included transaction (abci TxResult): code,
codespace and log; IsOK is code = 0. -/
structure TxResultData where
  code : ℕ
  codespace : String
  log : String
deriving DecidableEq

/-- Result of a transaction-by-hash query (cometbft ResultTx). -/
structure ResultTx where
  hash : String
  txResult : TxResultData
deriving DecidableEq

/-- The retry.Do loop inside Tx of core/tx.go lines 321 to 353, driven by an
oracle g giving the outcome of each c.tx query attempt.  retryIfFunc returns
true on every error, so the loop only stops on success or on exhausting the
budget.  Returns (result, err) and the number of query attempts made. -/
def retryDoTx (g : ℕ → Except String ResultTx) (k : ℕ) :
    ℕ → Option ResultTx × Option String × ℕ
  | 0 => (none, none, 0)
  | n + 1 =>
    match g k with
    | .ok r => (some r, none, 1)
    | .error e =>
      if n = 0 then (none, some e, 1)
      else
        match retryDoTx g (k + 1) n with
        | (r, er, m) => (r, er, m + 1)

/-- Tx of core/tx.go: runs the query retry loop from attempt 0 and, on error,
returns a nil result with the last error wrapped as "tx query failed after
retries".  The third component counts the query attempts. -/
def Tx (g : ℕ → Except String ResultTx) (attempts : ℕ) :
    Option ResultTx × Option String × ℕ :=
  match retryDoTx g 0 attempts with
  | (r, none, m) => (r, none, m)
  | (_, some e, m) => (none, some ("tx query failed after retries: " ++ e), m)

/-- Error text fmt.Errorf("code=%d, codespace=%s, log=%s", ...) used by
BroadcastTxBlock for mempool rejections and on-chain failures. -/
def codeErrMsg (code : ℕ) (codespace log : String) : String :=
  "code=" ++ toString code ++ ", codespace=" ++ codespace ++ ", log=" ++ log

/-- Outcome of BroadcastTxBlock: either the triple the Go function returns,
or a nil-pointer dereference panic. -/
inductive BroadcastTxBlockResult where
  | panicNilDeref : BroadcastTxBlockResult
  | ret : Option ResultBroadcastTx → Option ResultTx → Option String → BroadcastTxBlockResult
deriving DecidableEq

/-- BroadcastTxBlock of core/tx.go lines 358 to 385: broadcast synchronously,
check the mempool code, wait for inclusion, check the execution code.  The
field access resp.Code (line 366) on a nil resp — which BroadcastTxSync
produces on the mempool-cache path — is a nil-pointer dereference, modelled
as panicNilDeref.  Returns the outcome together with the number of broadcast
pipeline executions and of inclusion query attempts. -/
def BroadcastTxBlock (f : ℕ → Except String ResultBroadcastTx)
    (g : ℕ → Except String ResultTx) (nB nQ : ℕ) :
    BroadcastTxBlockResult × ℕ × ℕ :=
  match BroadcastTxSync f nB with
  | (_, some e, mB) => (.ret none none (some e), mB, 0)
  | (none, none, mB) => (.panicNilDeref, mB, 0)
  | (some resp, none, mB) =>
    if resp.code ≠ 0 then
      (.ret (some resp) none
        (some ("tx sync broadcast failed: " ++ codeErrMsg resp.code resp.codespace resp.log)),
        mB, 0)
    else
      match Tx g nQ with
      | (_, some e, mQ) => (.ret (some resp) none (some e), mB, mQ)
      | (none, none, mQ) => (.panicNilDeref, mB, mQ)
      | (some res, none, mQ) =>
        if res.txResult.code ≠ 0 then
          (.ret (some resp) (some res)
            (some ("tx failed: " ++ codeErrMsg res.txResult.code res.txResult.codespace res.txResult.log)),
            mB, mQ)
        else (.ret (some resp) (some res) none, mB, mQ)

/-- Keyring record (cosmos-sdk keyring.Record) reduced to what the embedded
functions use: GetAddress, which can fail on a malformed record. -/
structure KeyRecord where
  getAddress : Except String String
deriving DecidableEq

/-- Outcome of c.keyring.Key(name): a record, the ErrKeyNotFound sentinel
(matched by errors.IsOf in Key of the core keys file), or another failure. -/
inductive KeyringLookup where
  | found : KeyRecord → KeyringLookup
  | notFound : KeyringLookup
  | failure : String → KeyringLookup
deriving DecidableEq

/-- On-chain account state (auth.AccountI reduced to the fields the pipeline
reads): account number and sequence. -/
structure Account where
  accountNumber : ℕ
  sequence : ℕ
deriving DecidableEq

/-- Transaction message: either an ordinary message, or the authz MsgExec
envelope that wraps a message list under a grantee signer (the value
authz.NewMsgExec(addr, msgs) constructs at core/tx.go line 205). -/
inductive Msg where
  | base : String → String → Msg
  | exec : String → List Msg → Msg

/-- Client of the core package, reduced to the configuration fields read by
the embedded functions plus its external collaborators as oracles: keyring
is c.keyring.Key by name; validateBasic is the per-message ValidateBasic;
account is the Account query method (a Client method whose body lives
outside the core transaction file; only its call site at core/tx.go line 217
matters here); downstream is the prepareTx, signTx, encode, HTTP and node
broadcast tail of broadcastTxSync, as a function of the message list and
account the source passes it. -/
structure Client where
  txAuthzGranterAddr : String
  txFromName : String
  keyring : String → KeyringLookup
  validateBasic : Msg → Option String
  account : String → Except String (Option Account)
  downstream : List Msg → Account → Except String ResultBroadcastTx

/-- Key of the core keys file (unnamed part, lines 84 to 101): an empty name
falls back to txFromName; ErrKeyNotFound becomes (nil, nil); other keyring
failures are wrapped. -/
def Client.Key (c : Client) (name : String) : Except String (Option KeyRecord) :=
  match c.keyring (if name = "" then c.txFromName else name) with
  | .found r => .ok (some r)
  | .notFound => .ok none
  | .failure e => .error ("failed to retrieve key from keyring: " ++ e)

/-- KeyAddr of the core keys file (lines 104 to 119): looks the key up and
returns its address; a nil key record yields (nil, nil). -/
def Client.KeyAddr (c : Client) (name : String) : Except String (Option String) :=
  match c.Key name with
  | .error e => .error ("failed to retrieve key: " ++ e)
  | .ok none => .ok none
  | .ok (some r) =>
    match r.getAddress with
    | .error e => .error ("failed to get addr from key: " ++ e)
    | .ok a => .ok (some a)

/-- MsgFromAddr of core/tx.go lines 21 to 32: a configured authz granter
address is returned as the acting principal; otherwise the address bound to
txFromName is looked up through KeyAddr, wrapping only lookup errors. -/
def Client.MsgFromAddr (c : Client) : Except String (Option String) :=
  if c.txAuthzGranterAddr ≠ "" then .ok (some c.txAuthzGranterAddr)
  else
    match c.KeyAddr c.txFromName with
    | .error e => .error ("failed to get key addr for tx_from_name:" ++ e)
    | .ok a => .ok a

/-- Validation loop of broadcastTxSync (core/tx.go lines 210 to 214): the
first failing message aborts with its index. -/
def validateMsgs (v : Msg → Option String) : List Msg → ℕ → Option String
  | [], _ => none
  | m :: ms, i =>
    match v m with
    | some e => some ("failed to validate message at index " ++ toString i ++ ": " ++ e)
    | none => validateMsgs v ms (i + 1)

/-- Observation record of one broadcastTxSync pipeline execution: the message
list that entered the per-message validation loop, the address the account
query targeted (none when the flow aborted earlier), and the message list
handed to prepareTx and everything after it (none when the flow aborted
earlier). -/
structure BTxTrace where
  validated : List Msg
  accountQueried : Option String
  downstreamMsgs : Option (List Msg)

/-- broadcastTxSync of core/tx.go lines 188 to 255: key lookup, address
resolution, authz wrapping when a granter is configured, per-message
validation, account query, then the prepare/sign/encode/broadcast tail.
Returns the Go (result, error) outcome together with the trace of what the
execution did. -/
def Client.broadcastTxSync (c : Client) (msgs : List Msg) :
    Except String ResultBroadcastTx × BTxTrace :=
  match c.Key c.txFromName with
  | .error e => (.error ("failed to get key: " ++ e), ⟨[], none, none⟩)
  | .ok none => (.error (newErrNotFound ("key " ++ c.txFromName ++ " does not exist")), ⟨[], none, none⟩)
  | .ok (some key) =>
    match key.getAddress with
    | .error e => (.error ("failed to get addr from key: " ++ e), ⟨[], none, none⟩)
    | .ok addr =>
      let m := if c.txAuthzGranterAddr ≠ "" then [Msg.exec addr msgs] else msgs
      match validateMsgs c.validateBasic m 0 with
      | some e => (.error e, ⟨m, none, none⟩)
      | none =>
        match c.account addr with
        | .error e => (.error ("failed to query account: " ++ e), ⟨m, some addr, none⟩)
        | .ok none => (.error (newErrNotFound ("acconut " ++ addr ++ " does not exist")), ⟨m, some addr, none⟩)
        | .ok (some acc) =>
          match c.downstream m acc with
          | .error e => (.error e, ⟨m, some addr, some m⟩)
          | .ok r => (.ok r, ⟨m, some addr, some m⟩)

/-- Client whose keyring lacks the configured key name and that has no authz
granter configured. -/
def missingKeyClient : Client :=
  ⟨"", "main", fun _ => .notFound, fun _ => none, fun _ => .ok none, fun _ _ => .error "unused"⟩

/-- Client with an authz granter configured. -/
def granterClient : Client :=
  ⟨"qubetics1granter", "main", fun _ => .notFound, fun _ => none, fun _ => .ok none,
    fun _ _ => .error "unused"⟩

/-- Client whose keyring holds a key with a readable address. -/
def foundKeyClient : Client :=
  ⟨"", "main", fun _ => .found ⟨.ok "qubetics1abc"⟩, fun _ => none, fun _ => .ok none,
    fun _ _ => .error "unused"⟩

/-- Client whose keyring fails with an error other than key-not-found. -/
def failingKeyringClient : Client :=
  ⟨"", "main", fun _ => .failure "keyring backend unavailable", fun _ => none,
    fun _ => .ok none, fun _ _ => .error "unused"⟩

/-- Client with an authz granter, a resolvable signing key, passing message
validation, an existing account and a succeeding downstream tail. -/
def authzPipelineClient : Client :=
  ⟨"qubetics1granter", "main", fun _ => .found ⟨.ok "qubetics1grantee"⟩, fun _ => none,
    fun _ => .ok (some ⟨7, 41⟩), fun _ _ => .ok ⟨0, "", "", "CAFE"⟩⟩

/-- Broadcast oracle: one wrong-sequence failure, then a mempool-cache
duplicate failure. -/
def oracleSeqThenCache : ℕ → Except String ResultBroadcastTx
  | 0 => .error "failed to sync broadcast tx: incorrect account sequence"
  | _ => .error "failed to sync broadcast tx: tx already exists in cache"

/-- Broadcast oracle: every attempt fails with a wrong-sequence error. -/
def oracleAllWrongSeq (_ : ℕ) : Except String ResultBroadcastTx :=
  .error "expected 6, got 5: incorrect account sequence"

/-- Error texts of oracleAllWrongSeq. -/
def esAllWrongSeq (_ : ℕ) : String := "expected 6, got 5: incorrect account sequence"

/-- Broadcast oracle: a wrong-sequence failure, then an unclassified fatal
failure. -/
def oracleSeqThenFatal : ℕ → Except String ResultBroadcastTx
  | 0 => .error "incorrect account sequence"
  | _ => .error "failed to sign tx bytes: key locked"

/-- Broadcast oracle that always fails with an unclassified error. -/
def oracleFatal (_ : ℕ) : Except String ResultBroadcastTx := .error "failed to encode tx: boom"

/-- Broadcast oracle whose first attempt is rejected by the mempool with a
non-OK code. -/
def oracleMempoolReject (_ : ℕ) : Except String ResultBroadcastTx :=
  .ok ⟨13, "sdk", "insufficient fee", "DEAD"⟩

/-- Broadcast oracle whose first attempt is accepted by the mempool. -/
def oracleAccepted (_ : ℕ) : Except String ResultBroadcastTx := .ok ⟨0, "", "", "BEEF"⟩

/-- Query oracle that always fails (transaction never indexed). -/
def oracleQueryFail (_ : ℕ) : Except String ResultTx := .error "failed to query tx: not found"

/-- Error texts of oracleQueryFail. -/
def esQueryFail (_ : ℕ) : String := "failed to query tx: not found"

/-- Query oracle: two failures of different kinds, then an inclusion with
execution code 0. -/
def oracleQueryThenOk : ℕ → Except String ResultTx
  | 0 => .error "failed to query tx: not found"
  | 1 => .error "failed to create rpc client: incorrect account sequence"
  | _ => .ok ⟨"BEEF", ⟨0, "", ""⟩⟩

/-- Error texts of oracleQueryThenOk. -/
def esQueryThenOk : ℕ → String
  | 0 => "failed to query tx: not found"
  | _ => "failed to create rpc client: incorrect account sequence"

/-- Query oracle whose first attempt reports an included transaction with a
non-OK execution code. -/
def oracleQueryExecFail (_ : ℕ) : Except String ResultTx :=
  .ok ⟨"BEEF", ⟨5, "sdk", "out of gas"⟩⟩

theorem newCoin_some_eq (d : String) (a : ℤ) (cn : Coin) (h : NewCoin d a = some cn) :
    cn = ⟨d, a⟩ := by
  unfold NewCoin at h
  split at h
  · exact (Option.some_inj.mp h).symm
  · cases h

theorem newCoin_of_valid (d : String) (a : ℤ) (hd : ValidateDenom d = true) (ha : 0 ≤ a) :
    NewCoin d a = some ⟨d, a⟩ := by
  simp [NewCoin, hd, ha]

theorem calculateFees_eq_map (ps : List DecCoin) (g : ℕ) (fee : List Coin)
    (h : calculateFees ps g = some fee) :
    fee = ps.map fun p => (⟨p.denom, decCoinFee p g⟩ : Coin) := by
  induction ps generalizing fee with
  | nil =>
    simp only [calculateFees, Option.some_inj] at h
    simp [h.symm]
  | cons p ps ih =>
    simp only [calculateFees] at h
    cases hnc : NewCoin p.denom (decCoinFee p g) with
    | none => rw [hnc] at h; simp at h
    | some cn =>
      rw [hnc] at h
      cases hrest : calculateFees ps g with
      | none => rw [hrest] at h; simp at h
      | some rest =>
        rw [hrest] at h
        simp only [Option.some_inj] at h
        rw [← h, newCoin_some_eq _ _ _ hnc, ih rest hrest]
        simp

theorem mem_insertDecCoin (a p : DecCoin) (l : List DecCoin) :
    a ∈ insertDecCoin p l → a = p ∨ a ∈ l := by
  induction l with
  | nil =>
    intro h
    exact Or.inl (by simpa [insertDecCoin] using h)
  | cons q qs ih =>
    intro h
    unfold insertDecCoin at h
    split at h
    · rcases List.mem_cons.mp h with h | h
      · exact Or.inr (List.mem_cons.mpr (Or.inl h))
      · rcases ih h with h | h
        · exact Or.inl h
        · exact Or.inr (List.mem_cons.mpr (Or.inr h))
    · rcases List.mem_cons.mp h with h | h
      · exact Or.inl h
      · exact Or.inr h

theorem mem_sortDecCoins (a : DecCoin) (l : List DecCoin) : a ∈ sortDecCoins l → a ∈ l := by
  induction l with
  | nil => intro h; simp [sortDecCoins] at h
  | cons p ps ih =>
    intro h
    rcases mem_insertDecCoin a p (sortDecCoins ps) h with h | h
    · simp [h]
    · exact List.mem_cons.mpr (Or.inr (ih h))

/-- C8: for every gas-price configuration in which the price for some denom is
zero, that denom is absent from the fee computed by calculateFees: the parse
pipeline of GetGasPrices removes zero-price entries before they ever reach
calculateFees, and calculateFees emits exactly one fee coin per surviving
entry, with amount ceil(price * gasLimit), so denoms not configured are
absent. -/
theorem calculateFees_zero_price_denom_absent
    (entries prices : List DecCoin) (g : ℕ) (fee : List Coin) (d : String)
    (hp : parseDecCoinsEntries entries = some prices)
    (hf : calculateFees prices g = some fee) :
    ((∀ p ∈ entries, p.denom = d → p.amount = 0) → d ∉ fee.map Coin.denom) ∧
    fee.map Coin.denom = prices.map DecCoin.denom ∧
    (∀ p ∈ prices, (⟨p.denom, decCoinFee p g⟩ : Coin) ∈ fee) := by
  have hmap := calculateFees_eq_map prices g fee hf
  have hprices : prices = sortDecCoins (removeZeroDecCoins entries) := by
    simp only [parseDecCoinsEntries] at hp
    split at hp
    · exact (Option.some_inj.mp hp).symm
    · cases hp
  have hden : fee.map Coin.denom = prices.map DecCoin.denom := by
    rw [hmap, List.map_map]
    rfl
  refine ⟨?_, hden, ?_⟩
  · intro hzero hmem
    rw [hden] at hmem
    obtain ⟨p, hpmem, hpd⟩ := List.mem_map.mp hmem
    rw [hprices] at hpmem
    have h1 := mem_sortDecCoins _ _ hpmem
    simp only [removeZeroDecCoins, List.mem_filter] at h1
    obtain ⟨hpe, hpnz⟩ := h1
    have h0 := hzero p hpe hpd
    simp [h0] at hpnz
  · intro p hp2
    rw [hmap]
    exact List.mem_map.mpr ⟨p, hp2, rfl⟩

theorem calculateFees_zero_price_denom_absent_witness :
    parseDecCoinsEntries [⟨"zero", 0⟩, ⟨"tics", 10 ^ 17⟩] = some [⟨"tics", 10 ^ 17⟩] ∧
    calculateFees [⟨"tics", 10 ^ 17⟩] 200000 = some [⟨"tics", 20000⟩] ∧
    "zero" ∉ ([⟨"tics", 20000⟩] : List Coin).map Coin.denom :=
  ⟨by decide, by decide,
    (calculateFees_zero_price_denom_absent [⟨"zero", 0⟩, ⟨"tics", 10 ^ 17⟩]
      [⟨"tics", 10 ^ 17⟩] 200000 [⟨"tics", 20000⟩] "zero" (by decide) (by decide)).1
      (by decide)⟩

theorem decCeilToInt_mono {a b : ℤ} (h : a ≤ b) : decCeilToInt a ≤ decCeilToInt b := by
  unfold decCeilToInt
  exact Int.ediv_le_ediv (by norm_num [decScale]) (by omega)

theorem decCeilToInt_nonneg {a : ℤ} (h : 0 ≤ a) : 0 ≤ decCeilToInt a := by
  unfold decCeilToInt
  exact Int.ediv_nonneg (by norm_num [decScale] at *; omega) (by norm_num [decScale])

theorem feeAmountsLE_cons {a b : Coin} {f1 f2 : List Coin} (hab : a.amount ≤ b.amount)
    (h : feeAmountsLE f1 f2) : feeAmountsLE (a :: f1) (b :: f2) := by
  intro i h1 h2
  cases i with
  | zero => exact hab
  | succ i => exact h i (Nat.lt_of_succ_lt_succ h1) (Nat.lt_of_succ_lt_succ h2)

theorem toInt64_of_lt {g : ℕ} (h : g < 2 ^ 63) : toInt64 g = (g : ℤ) := by
  unfold toInt64
  rw [if_pos h]

/-- C9 counterexample: with the valid gas-price configuration of one denom at
price 1.0 and the gas limits 2^63 - 1 and 2^63 (both inside the uint64 range
of the gas-limit argument), the fee at the larger limit is not computed at
all: int64(gasLimit) wraps to a negative number, the scaled fee becomes
negative, and cosmossdk.NewCoin panics, so the amounts cannot compare. -/
theorem calculateFees_not_monotone_full_uint64_counterexample :
    ((2 : ℕ) ^ 63 - 1) ≤ 2 ^ 63 ∧ ((2 : ℕ) ^ 63) < 2 ^ 64 ∧
    validateDecCoins [⟨"tics", decScale⟩] = true ∧
    calculateFees [⟨"tics", decScale⟩] (2 ^ 63) = none ∧
    ¬ calculateFeesMonotoneAt [⟨"tics", decScale⟩] (2 ^ 63 - 1) (2 ^ 63) := by
  have hnone : calculateFees [⟨"tics", decScale⟩] (2 ^ 63) = none := by decide
  refine ⟨by norm_num, by norm_num, by decide, hnone, ?_⟩
  rintro ⟨f1, f2, h1, h2, hle⟩
  rw [hnone] at h2
  cases h2

/-- C9 amended: calculateFees is monotonic non-decreasing in the gas limit,
pointwise per denom, for all gas limits below 2^63 (the range on which the
int64 conversion of the uint64 gas limit is value-preserving).  The
restriction is forced by the counterexample: at gas limit 2^63 with price
1.0 the wrapped conversion makes the fee negative and NewCoin panics, so
the comparison the original claim asserts over the full uint64 range is not
available there. -/
theorem calculateFees_monotone_below_int64_max
    (prices : List DecCoin) (g1 g2 : ℕ)
    (hd : ∀ p ∈ prices, ValidateDenom p.denom = true)
    (ha : ∀ p ∈ prices, 0 ≤ p.amount)
    (h12 : g1 ≤ g2) (h2 : g2 < 2 ^ 63) :
    calculateFeesMonotoneAt prices g1 g2 := by
  induction prices with
  | nil =>
    refine ⟨[], [], rfl, rfl, ?_⟩
    intro i h1 _
    simp at h1
  | cons p ps ih =>
    obtain ⟨r1, r2, e1, e2, hrest⟩ :=
      ih (fun q hq => hd q (List.mem_cons.mpr (Or.inr hq)))
        (fun q hq => ha q (List.mem_cons.mpr (Or.inr hq)))
    have hdp := hd p (List.mem_cons.mpr (Or.inl rfl))
    have hap := ha p (List.mem_cons.mpr (Or.inl rfl))
    have ht1 : toInt64 g1 = (g1 : ℤ) := toInt64_of_lt (lt_of_le_of_lt h12 h2)
    have ht2 : toInt64 g2 = (g2 : ℤ) := toInt64_of_lt h2
    have hfee_le : decCoinFee p g1 ≤ decCoinFee p g2 := by
      unfold decCoinFee
      rw [ht1, ht2]
      exact decCeilToInt_mono (mul_le_mul_of_nonneg_left (Int.ofNat_le.mpr h12) hap)
    have hfee1_nonneg : 0 ≤ decCoinFee p g1 := by
      unfold decCoinFee
      rw [ht1]
      exact decCeilToInt_nonneg (mul_nonneg hap (Int.ofNat_zero_le g1))
    have hfee2_nonneg : 0 ≤ decCoinFee p g2 := le_trans hfee1_nonneg hfee_le
    refine ⟨⟨p.denom, decCoinFee p g1⟩ :: r1, ⟨p.denom, decCoinFee p g2⟩ :: r2, ?_, ?_, ?_⟩
    · simp only [calculateFees, newCoin_of_valid p.denom _ hdp hfee1_nonneg, e1]
    · simp only [calculateFees, newCoin_of_valid p.denom _ hdp hfee2_nonneg, e2]
    · exact feeAmountsLE_cons hfee_le hrest

theorem calculateFees_monotone_below_int64_max_witness :
    (100 : ℕ) ≤ 101 ∧ (101 : ℕ) < 2 ^ 63 ∧
    calculateFeesMonotoneAt [⟨"tics", 10 ^ 17⟩] 100 101 :=
  ⟨by norm_num, by norm_num,
    calculateFees_monotone_below_int64_max [⟨"tics", 10 ^ 17⟩] 100 101
      (by decide) (by decide) (by norm_num) (by norm_num)⟩

theorem retryDoBroadcast_cache (f : ℕ → Except String ResultBroadcastTx) (es : ℕ → String) :
    ∀ (j k n : ℕ), j < n →
    (∀ i, i < j → f (k + i) = .error (es (k + i)) ∧ IsWrongSequenceError (es (k + i)) = true
      ∧ IsTxInMempoolCacheError (es (k + i)) = false) →
    ∀ e, f (k + j) = .error e → IsTxInMempoolCacheError e = true →
    retryDoBroadcast f k n = (none, none, j + 1) := by
  intro j
  induction j with
  | zero =>
    intro k n hjn h e hf hc
    obtain ⟨m, rfl⟩ : ∃ m, n = m + 1 := ⟨n - 1, by omega⟩
    rw [Nat.add_zero] at hf
    simp only [retryDoBroadcast]
    rw [hf]
    simp [hc]
  | succ j ih =>
    intro k n hjn h e hf hc
    obtain ⟨m, rfl⟩ : ∃ m, n = m + 1 := ⟨n - 1, by omega⟩
    obtain ⟨h0, hws, hnc⟩ := h 0 (Nat.succ_pos j)
    rw [Nat.add_zero] at h0 hws hnc
    have hm : ¬ (m = 0) := by omega
    have ihres := ih (k + 1) m (by omega)
      (fun i hi => by
        have hh := h (i + 1) (by omega)
        rwa [show k + (i + 1) = k + 1 + i from by omega] at hh)
      e (by rwa [show k + 1 + j = k + (j + 1) from by omega]) hc
    simp only [retryDoBroadcast]
    rw [h0]
    simp [hws, hnc, hm, ihres]

theorem retryDoBroadcast_wrongSeq_exhaust (f : ℕ → Except String ResultBroadcastTx)
    (es : ℕ → String) :
    ∀ (n k : ℕ), 1 ≤ n →
    (∀ i, i < n → f (k + i) = .error (es (k + i)) ∧ IsWrongSequenceError (es (k + i)) = true
      ∧ IsTxInMempoolCacheError (es (k + i)) = false) →
    retryDoBroadcast f k n = (none, some (es (k + (n - 1))), n) := by
  intro n
  induction n with
  | zero => intro k hn h; omega
  | succ m ih =>
    intro k hn h
    obtain ⟨h0, hws, hnc⟩ := h 0 (Nat.succ_pos m)
    rw [Nat.add_zero] at h0 hws hnc
    by_cases hm : m = 0
    · subst hm
      simp only [retryDoBroadcast]
      rw [h0]
      simp [hnc, hws]
    · have ihres := ih (k + 1) (by omega)
        (fun i hi => by
          have hh := h (i + 1) (by omega)
          rwa [show k + (i + 1) = k + 1 + i from by omega] at hh)
      rw [show k + 1 + (m - 1) = k + m from by omega] at ihres
      simp only [retryDoBroadcast]
      rw [h0]
      simp [hnc, hws, hm, ihres]

theorem retryDoBroadcast_fatal (f : ℕ → Except String ResultBroadcastTx) (es : ℕ → String) :
    ∀ (j k n : ℕ), j < n →
    (∀ i, i < j → f (k + i) = .error (es (k + i)) ∧ IsWrongSequenceError (es (k + i)) = true
      ∧ IsTxInMempoolCacheError (es (k + i)) = false) →
    ∀ e, f (k + j) = .error e → IsTxInMempoolCacheError e = false →
    IsWrongSequenceError e = false →
    retryDoBroadcast f k n = (none, some e, j + 1) := by
  intro j
  induction j with
  | zero =>
    intro k n hjn h e hf hc hw
    obtain ⟨m, rfl⟩ : ∃ m, n = m + 1 := ⟨n - 1, by omega⟩
    rw [Nat.add_zero] at hf
    simp only [retryDoBroadcast]
    rw [hf]
    simp [hc, hw]
  | succ j ih =>
    intro k n hjn h e hf hc hw
    obtain ⟨m, rfl⟩ : ∃ m, n = m + 1 := ⟨n - 1, by omega⟩
    obtain ⟨h0, hws, hnc⟩ := h 0 (Nat.succ_pos j)
    rw [Nat.add_zero] at h0 hws hnc
    have hm : ¬ (m = 0) := by omega
    have ihres := ih (k + 1) m (by omega)
      (fun i hi => by
        have hh := h (i + 1) (by omega)
        rwa [show k + (i + 1) = k + 1 + i from by omega] at hh)
      e (by rwa [show k + 1 + j = k + (j + 1) from by omega]) hc hw
    simp only [retryDoBroadcast]
    rw [h0]
    simp [hws, hnc, hm, ihres]

/-- C1: when a broadcast attempt fails with an error whose text matches the
mempool-cache pattern, the retry loop of BroadcastTxSync stops at that very
attempt (the count of pipeline executions is j + 1) and the call reports no
error; the attempts before it are the only ones that can reach attempt j,
namely wrong-sequence retries. -/
theorem broadcastTxSync_mempool_cache_stops_retrying
    (f : ℕ → Except String ResultBroadcastTx) (es : ℕ → String) (j n : ℕ) (e : String)
    (hjn : j < n)
    (hpre : ∀ i, i < j → f i = .error (es i) ∧ IsWrongSequenceError (es i) = true
      ∧ IsTxInMempoolCacheError (es i) = false)
    (hj : f j = .error e) (hcache : IsTxInMempoolCacheError e = true) :
    BroadcastTxSync f n = (none, none, j + 1) := by
  have hloop := retryDoBroadcast_cache f es j 0 n hjn
    (fun i hi => by simpa using hpre i hi) e (by simpa using hj) hcache
  simp [BroadcastTxSync, hloop]

theorem broadcastTxSync_mempool_cache_stops_retrying_witness :
    BroadcastTxSync oracleSeqThenCache 3 = (none, none, 2) :=
  broadcastTxSync_mempool_cache_stops_retrying oracleSeqThenCache
    (fun _ => "failed to sync broadcast tx: incorrect account sequence") 1 3
    "failed to sync broadcast tx: tx already exists in cache"
    (by norm_num) (by decide) (by decide) (by decide)

/-- C2: a mempool-cache error makes BroadcastTxSync return a nil response
together with a nil error (retryFunc maps the error to success while resp
was never assigned a non-nil value), and BroadcastTxBlock, seeing a nil
error, immediately reads resp.Code — a nil-pointer dereference. -/
theorem broadcastTxBlock_nil_deref_on_mempool_cache
    (f : ℕ → Except String ResultBroadcastTx) (g : ℕ → Except String ResultTx)
    (es : ℕ → String) (nB nQ j : ℕ) (e : String) (hjn : j < nB)
    (hpre : ∀ i, i < j → f i = .error (es i) ∧ IsWrongSequenceError (es i) = true
      ∧ IsTxInMempoolCacheError (es i) = false)
    (hj : f j = .error e) (hcache : IsTxInMempoolCacheError e = true) :
    BroadcastTxSync f nB = (none, none, j + 1) ∧
    BroadcastTxBlock f g nB nQ = (.panicNilDeref, j + 1, 0) := by
  have hloop := retryDoBroadcast_cache f es j 0 nB hjn
    (fun i hi => by simpa using hpre i hi) e (by simpa using hj) hcache
  have hsync : BroadcastTxSync f nB = (none, none, j + 1) := by
    simp [BroadcastTxSync, hloop]
  exact ⟨hsync, by simp [BroadcastTxBlock, hsync]⟩

theorem broadcastTxBlock_nil_deref_on_mempool_cache_witness :
    BroadcastTxBlock oracleSeqThenCache oracleQueryFail 3 30 = (.panicNilDeref, 2, 0) :=
  (broadcastTxBlock_nil_deref_on_mempool_cache oracleSeqThenCache oracleQueryFail
    (fun _ => "failed to sync broadcast tx: incorrect account sequence") 3 30 1
    "failed to sync broadcast tx: tx already exists in cache"
    (by norm_num) (by decide) (by decide) (by decide)).2

/-- C3: a broadcast attempt failing with a wrong-sequence error makes the
retry loop re-run the whole broadcastTxSync pipeline (the oracle index
counts full pipeline executions, each of which re-fetches the account);
when every attempt fails that way the loop runs exactly the configured
number of attempts and surfaces the last error wrapped; a broadcast attempt
failing with any other non-cache error stops the loop at that attempt and
surfaces the error without further pipeline executions. -/
theorem broadcastTxSync_wrong_sequence_retry_policy
    (f : ℕ → Except String ResultBroadcastTx) (es : ℕ → String) (n : ℕ) (hn : 1 ≤ n) :
    ((∀ i, i < n → f i = .error (es i) ∧ IsWrongSequenceError (es i) = true
        ∧ IsTxInMempoolCacheError (es i) = false) →
      BroadcastTxSync f n =
        (none, some ("tx sync broadcast failed after retries: " ++ es (n - 1)), n)) ∧
    (∀ j e, j < n →
      (∀ i, i < j → f i = .error (es i) ∧ IsWrongSequenceError (es i) = true
        ∧ IsTxInMempoolCacheError (es i) = false) →
      f j = .error e → IsTxInMempoolCacheError e = false → IsWrongSequenceError e = false →
      BroadcastTxSync f n =
        (none, some ("tx sync broadcast failed after retries: " ++ e), j + 1)) := by
  constructor
  · intro h
    have hloop := retryDoBroadcast_wrongSeq_exhaust f es n 0 hn
      (fun i hi => by simpa using h i hi)
    rw [Nat.zero_add] at hloop
    simp [BroadcastTxSync, hloop]
  · intro j e hjn hpre hj hc hw
    have hloop := retryDoBroadcast_fatal f es j 0 n hjn
      (fun i hi => by simpa using hpre i hi) e (by simpa using hj) hc hw
    simp [BroadcastTxSync, hloop]

theorem broadcastTxSync_wrong_sequence_retry_policy_witness :
    BroadcastTxSync oracleAllWrongSeq 3 =
      (none, some ("tx sync broadcast failed after retries: " ++ esAllWrongSeq 2), 3) ∧
    BroadcastTxSync oracleSeqThenFatal 5 =
      (none, some ("tx sync broadcast failed after retries: failed to sign tx bytes: key locked"),
        2) :=
  ⟨(broadcastTxSync_wrong_sequence_retry_policy oracleAllWrongSeq esAllWrongSeq 3
      (by norm_num)).1 (by decide),
   (broadcastTxSync_wrong_sequence_retry_policy oracleSeqThenFatal
      (fun _ => "incorrect account sequence") 5 (by norm_num)).2 1
      "failed to sign tx bytes: key locked" (by norm_num) (by decide) (by decide)
      (by decide) (by decide)⟩

theorem retryDoTx_allErr (g : ℕ → Except String ResultTx) (es : ℕ → String) :
    ∀ (n k : ℕ), 1 ≤ n → (∀ i, i < n → g (k + i) = .error (es (k + i))) →
    retryDoTx g k n = (none, some (es (k + (n - 1))), n) := by
  intro n
  induction n with
  | zero => intro k hn h; omega
  | succ m ih =>
    intro k hn h
    have h0 := h 0 (Nat.succ_pos m)
    rw [Nat.add_zero] at h0
    by_cases hm : m = 0
    · subst hm
      simp only [retryDoTx]
      rw [h0]
      simp
    · have ihres := ih (k + 1) (by omega)
        (fun i hi => by
          have hh := h (i + 1) (by omega)
          rwa [show k + (i + 1) = k + 1 + i from by omega] at hh)
      rw [show k + 1 + (m - 1) = k + m from by omega] at ihres
      simp only [retryDoTx]
      rw [h0]
      simp [hm, ihres]

theorem retryDoTx_successAt (g : ℕ → Except String ResultTx) (es : ℕ → String) :
    ∀ (j k n : ℕ), j < n → (∀ i, i < j → g (k + i) = .error (es (k + i))) →
    ∀ r, g (k + j) = .ok r → retryDoTx g k n = (some r, none, j + 1) := by
  intro j
  induction j with
  | zero =>
    intro k n hjn h r hr
    obtain ⟨m, rfl⟩ : ∃ m, n = m + 1 := ⟨n - 1, by omega⟩
    rw [Nat.add_zero] at hr
    simp only [retryDoTx]
    rw [hr]
  | succ j ih =>
    intro k n hjn h r hr
    obtain ⟨m, rfl⟩ : ∃ m, n = m + 1 := ⟨n - 1, by omega⟩
    have h0 := h 0 (Nat.succ_pos j)
    rw [Nat.add_zero] at h0
    have hm : ¬ (m = 0) := by omega
    have ihres := ih (k + 1) m (by omega)
      (fun i hi => by
        have hh := h (i + 1) (by omega)
        rwa [show k + (i + 1) = k + 1 + i from by omega] at hh)
      r (by rwa [show k + 1 + j = k + (j + 1) from by omega])
    simp only [retryDoTx]
    rw [h0]
    simp [hm, ihres]

/-- C6: the inclusion watcher Tx treats every query error as retryable,
whatever its text (including texts that the broadcast phase would classify
as fatal): when all attempts of its own budget fail it performs exactly that
many query attempts and surfaces the last error wrapped; as soon as one
attempt succeeds, after any sequence of failures, it returns the result. -/
theorem tx_query_retries_every_error
    (g : ℕ → Except String ResultTx) (es : ℕ → String) (n : ℕ) (hn : 1 ≤ n) :
    ((∀ i, i < n → g i = .error (es i)) →
      Tx g n = (none, some ("tx query failed after retries: " ++ es (n - 1)), n)) ∧
    (∀ j r, j < n → (∀ i, i < j → g i = .error (es i)) → g j = .ok r →
      Tx g n = (some r, none, j + 1)) := by
  constructor
  · intro h
    have hloop := retryDoTx_allErr g es n 0 hn (fun i hi => by simpa using h i hi)
    rw [Nat.zero_add] at hloop
    simp [Tx, hloop]
  · intro j r hjn hpre hj
    have hloop := retryDoTx_successAt g es j 0 n hjn
      (fun i hi => by simpa using hpre i hi) r (by simpa using hj)
    simp [Tx, hloop]

theorem tx_query_retries_every_error_witness :
    Tx oracleQueryFail 30 =
      (none, some ("tx query failed after retries: " ++ esQueryFail 29), 30) ∧
    Tx oracleQueryThenOk 30 = (some ⟨"BEEF", ⟨0, "", ""⟩⟩, none, 3) :=
  ⟨(tx_query_retries_every_error oracleQueryFail esQueryFail 30 (by norm_num)).1 (by decide),
   (tx_query_retries_every_error oracleQueryThenOk esQueryThenOk 30 (by norm_num)).2 2
      ⟨"BEEF", ⟨0, "", ""⟩⟩ (by norm_num) (by decide) (by decide)⟩

/-- C4: BroadcastTxBlock performs the full case analysis: a broadcast error
returns (nil, nil, error) with zero inclusion query attempts; a non-OK
mempool code returns the broadcast response, a nil inclusion result, and a
fatal code/codespace/log error with zero query attempts; an inclusion query
error (such as an exhausted budget) returns the broadcast response, a nil
inclusion result, and that error; a non-OK execution code returns both
results and a fatal code/codespace/log error; otherwise both results are
returned with a nil error. -/
theorem broadcastTxBlock_case_analysis
    (f : ℕ → Except String ResultBroadcastTx) (g : ℕ → Except String ResultTx) (nB nQ : ℕ) :
    (∀ r e mB, BroadcastTxSync f nB = (r, some e, mB) →
      BroadcastTxBlock f g nB nQ = (.ret none none (some e), mB, 0)) ∧
    (∀ resp mB, BroadcastTxSync f nB = (some resp, none, mB) → resp.code ≠ 0 →
      BroadcastTxBlock f g nB nQ =
        (.ret (some resp) none
          (some ("tx sync broadcast failed: " ++ codeErrMsg resp.code resp.codespace resp.log)),
          mB, 0)) ∧
    (∀ resp mB r e mQ, BroadcastTxSync f nB = (some resp, none, mB) → resp.code = 0 →
      Tx g nQ = (r, some e, mQ) →
      BroadcastTxBlock f g nB nQ = (.ret (some resp) none (some e), mB, mQ)) ∧
    (∀ resp mB res mQ, BroadcastTxSync f nB = (some resp, none, mB) → resp.code = 0 →
      Tx g nQ = (some res, none, mQ) → res.txResult.code ≠ 0 →
      BroadcastTxBlock f g nB nQ =
        (.ret (some resp) (some res)
          (some ("tx failed: " ++
            codeErrMsg res.txResult.code res.txResult.codespace res.txResult.log)),
          mB, mQ)) ∧
    (∀ resp mB res mQ, BroadcastTxSync f nB = (some resp, none, mB) → resp.code = 0 →
      Tx g nQ = (some res, none, mQ) → res.txResult.code = 0 →
      BroadcastTxBlock f g nB nQ = (.ret (some resp) (some res) none, mB, mQ)) := by
  refine ⟨?_, ?_, ?_, ?_, ?_⟩
  · intro r e mB h
    rcases r with _ | resp <;> simp [BroadcastTxBlock, h]
  · intro resp mB h hcode
    simp [BroadcastTxBlock, h, hcode]
  · intro resp mB r e mQ h hcode hq
    rcases r with _ | res <;> simp [BroadcastTxBlock, h, hcode, hq]
  · intro resp mB res mQ h hcode hq hres
    simp [BroadcastTxBlock, h, hcode, hq, hres]
  · intro resp mB res mQ h hcode hq hres
    simp [BroadcastTxBlock, h, hcode, hq, hres]

theorem broadcastTxBlock_case_analysis_witness :
    BroadcastTxBlock oracleFatal oracleQueryFail 1 30 =
      (.ret none none (some "tx sync broadcast failed after retries: failed to encode tx: boom"),
        1, 0) ∧
    BroadcastTxBlock oracleMempoolReject oracleQueryFail 1 30 =
      (.ret (some ⟨13, "sdk", "insufficient fee", "DEAD"⟩) none
        (some ("tx sync broadcast failed: " ++ codeErrMsg 13 "sdk" "insufficient fee")), 1, 0) ∧
    BroadcastTxBlock oracleAccepted oracleQueryFail 1 2 =
      (.ret (some ⟨0, "", "", "BEEF"⟩) none
        (some ("tx query failed after retries: " ++ esQueryFail 1)), 1, 2) ∧
    BroadcastTxBlock oracleAccepted oracleQueryExecFail 1 30 =
      (.ret (some ⟨0, "", "", "BEEF"⟩) (some ⟨"BEEF", ⟨5, "sdk", "out of gas"⟩⟩)
        (some ("tx failed: " ++ codeErrMsg 5 "sdk" "out of gas")), 1, 1) ∧
    BroadcastTxBlock oracleAccepted oracleQueryThenOk 1 30 =
      (.ret (some ⟨0, "", "", "BEEF"⟩) (some ⟨"BEEF", ⟨0, "", ""⟩⟩) none, 1, 3) :=
  ⟨(broadcastTxBlock_case_analysis oracleFatal oracleQueryFail 1 30).1 none
      "tx sync broadcast failed after retries: failed to encode tx: boom" 1 (by decide),
   (broadcastTxBlock_case_analysis oracleMempoolReject oracleQueryFail 1 30).2.1
      ⟨13, "sdk", "insufficient fee", "DEAD"⟩ 1 (by decide) (by decide),
   (broadcastTxBlock_case_analysis oracleAccepted oracleQueryFail 1 2).2.2.1
      ⟨0, "", "", "BEEF"⟩ 1 none ("tx query failed after retries: " ++ esQueryFail 1) 2
      (by decide) (by decide) (by decide),
   (broadcastTxBlock_case_analysis oracleAccepted oracleQueryExecFail 1 30).2.2.2.1
      ⟨0, "", "", "BEEF"⟩ 1 ⟨"BEEF", ⟨5, "sdk", "out of gas"⟩⟩ 1
      (by decide) (by decide) (by decide) (by decide),
   (broadcastTxBlock_case_analysis oracleAccepted oracleQueryThenOk 1 30).2.2.2.2
      ⟨0, "", "", "BEEF"⟩ 1 ⟨"BEEF", ⟨0, "", ""⟩⟩ 3
      (by decide) (by decide) (by decide) (by decide)⟩

/-- C5 counterexample: a client with no authz granter configured and whose
keyring lacks the configured key name.  MsgFromAddr returns a nil address
with a nil error, because Key maps the keyring's ErrKeyNotFound to
(nil, nil) and KeyAddr passes the nil record through as (nil, nil) — not the
fatal error the claim requires for an absent key. -/
theorem msgFromAddr_missing_key_no_error_counterexample :
    missingKeyClient.txAuthzGranterAddr = "" ∧
    missingKeyClient.keyring missingKeyClient.txFromName = .notFound ∧
    missingKeyClient.MsgFromAddr = .ok none := by
  decide

/-- C5 amended: if an authz granter address is configured it is returned as
the acting principal; otherwise the address bound to the configured key name
is looked up in the keyring, but absence of the key under that name yields a
nil address together with a nil error (the not-found case is swallowed); a
fatal error is returned only for keyring failures other than key-not-found
(and for unreadable records). -/
theorem msgFromAddr_resolution_amended (c : Client) :
    (c.txAuthzGranterAddr ≠ "" → c.MsgFromAddr = .ok (some c.txAuthzGranterAddr)) ∧
    (c.txAuthzGranterAddr = "" → c.keyring c.txFromName = .notFound →
      c.MsgFromAddr = .ok none) ∧
    (∀ r a, c.txAuthzGranterAddr = "" → c.keyring c.txFromName = .found r →
      r.getAddress = .ok a → c.MsgFromAddr = .ok (some a)) ∧
    (∀ e, c.txAuthzGranterAddr = "" → c.keyring c.txFromName = .failure e →
      c.MsgFromAddr = .error ("failed to get key addr for tx_from_name:" ++
        ("failed to retrieve key: " ++ ("failed to retrieve key from keyring: " ++ e)))) := by
  refine ⟨?_, ?_, ?_, ?_⟩
  · intro hg
    simp [Client.MsgFromAddr, hg]
  · intro hg hk
    simp [Client.MsgFromAddr, Client.KeyAddr, Client.Key, hg, ite_self, hk]
  · intro r a hg hk ha
    simp [Client.MsgFromAddr, Client.KeyAddr, Client.Key, hg, ite_self, hk, ha]
  · intro e hg hk
    simp [Client.MsgFromAddr, Client.KeyAddr, Client.Key, hg, ite_self, hk]

theorem msgFromAddr_resolution_amended_witness :
    granterClient.MsgFromAddr = .ok (some "qubetics1granter") ∧
    missingKeyClient.MsgFromAddr = .ok none ∧
    foundKeyClient.MsgFromAddr = .ok (some "qubetics1abc") ∧
    failingKeyringClient.MsgFromAddr = .error ("failed to get key addr for tx_from_name:" ++
      ("failed to retrieve key: " ++
        ("failed to retrieve key from keyring: " ++ "keyring backend unavailable"))) :=
  ⟨(msgFromAddr_resolution_amended granterClient).1 (by decide),
   (msgFromAddr_resolution_amended missingKeyClient).2.1 rfl rfl,
   (msgFromAddr_resolution_amended foundKeyClient).2.2.1 ⟨.ok "qubetics1abc"⟩ "qubetics1abc"
      rfl rfl rfl,
   (msgFromAddr_resolution_amended failingKeyringClient).2.2.2 "keyring backend unavailable"
      rfl rfl⟩

/-- C7: with an authz granter configured, broadcastTxSync replaces the
original message list, before the per-message validation loop and before
anything downstream (prepareTx, encoding, broadcast), by the single authz
exec message whose signer is the grantee address read from the locally held
signing key; and the on-chain account query targets that signing address
(whenever it is reached at all), never any other address such as the
granter. -/
theorem broadcastTxSync_authz_wrapping
    (c : Client) (msgs : List Msg) (key : KeyRecord) (addr : String)
    (hg : c.txAuthzGranterAddr ≠ "")
    (hk : c.keyring c.txFromName = .found key)
    (ha : key.getAddress = .ok addr) :
    (c.broadcastTxSync msgs).2.validated = [Msg.exec addr msgs] ∧
    (∀ ms, (c.broadcastTxSync msgs).2.downstreamMsgs = some ms → ms = [Msg.exec addr msgs]) ∧
    (∀ a, (c.broadcastTxSync msgs).2.accountQueried = some a → a = addr) ∧
    (validateMsgs c.validateBasic [Msg.exec addr msgs] 0 = none →
      (c.broadcastTxSync msgs).2.accountQueried = some addr) := by
  have hkey : c.Key c.txFromName = .ok (some key) := by
    unfold Client.Key
    rw [ite_self, hk]
  simp only [Client.broadcastTxSync, hkey, ha, if_pos hg]
  rcases hv : validateMsgs c.validateBasic [Msg.exec addr msgs] 0 with _ | e
  · rcases hacc : c.account addr with e1 | oacc
    · simp [hv, hacc]
    · rcases oacc with _ | acc
      · simp [hv, hacc]
      · rcases hds : c.downstream [Msg.exec addr msgs] acc with e2 | r
        · simp [hv, hacc, hds]
        · simp [hv, hacc, hds]
  · simp [hv]

theorem broadcastTxSync_authz_wrapping_witness :
    (authzPipelineClient.broadcastTxSync [Msg.base "qubetics1granter" "send"]).2.validated
      = [Msg.exec "qubetics1grantee" [Msg.base "qubetics1granter" "send"]] ∧
    (authzPipelineClient.broadcastTxSync [Msg.base "qubetics1granter" "send"]).2.accountQueried
      = some "qubetics1grantee" :=
  ⟨(broadcastTxSync_authz_wrapping authzPipelineClient [Msg.base "qubetics1granter" "send"]
      ⟨.ok "qubetics1grantee"⟩ "qubetics1grantee" (by decide) rfl rfl).1,
   (broadcastTxSync_authz_wrapping authzPipelineClient [Msg.base "qubetics1granter" "send"]
      ⟨.ok "qubetics1grantee"⟩ "qubetics1grantee" (by decide) rfl rfl).2.2.2 rfl⟩
